import Mathlib

/-!
# Verification of the `nodo` sandboxing-wrapper policy core

Shallow embedding of the Rust sources (`src/types.rs`, `src/types/caps.rs`,
`src/config.rs`, `src/cli.rs`) into Lean 4, together with proofs about the
name validator, typed identifiers, capability flags, configuration
validation, configuration-path lookup, argument parsing, and the
spec-described project-root and policy resolvers.
-/

deriving instance DecidableEq for Except

namespace Nodo

/-! ## Name validator (`src/types.rs`)

`is_bad_name` checks a candidate file/command/subcommand name.  The target
platform is POSIX (the crate depends on Firejail), so `path::is_separator`
recognises exactly `/`.  Rust's `char::is_whitespace` tests the Unicode
`White_Space` property; the codepoint list below is that property's
assignment (Unicode 15). -/

/-- POSIX `std::path::is_separator`: only `/` separates path components. -/
def isPathSeparator (c : Char) : Bool :=
  c == '/'

/-- Rust `char::is_whitespace`: the Unicode `White_Space` property. -/
def rustIsWhitespace (c : Char) : Bool :=
  let n := c.toNat
  (0x9 ≤ n && n ≤ 0xD) || n == 0x20 || n == 0x85 || n == 0xA0 ||
    n == 0x1680 || (0x2000 ≤ n && n ≤ 0x200A) || n == 0x2028 ||
    n == 0x2029 || n == 0x202F || n == 0x205F || n == 0x3000

/-- The NUL codepoint U+0000. -/
def nulChar : Char := Char.ofNat 0

/-- The per-codepoint loop body of `is_bad_name`: scan the characters in
order and report the first rule violated (separator, then whitespace, then
null byte, checked in that order for each codepoint). -/
def checkNameChars : List Char → Except String Unit
  | [] => Except.ok ()
  | c :: rest =>
      if isPathSeparator c then Except.error "path separator"
      else if rustIsWhitespace c then Except.error "shell argument list"
      else if c == nulChar then Except.error "null byte"
      else checkNameChars rest

/-- `is_bad_name` from `src/types.rs`: reject the empty string, then scan
codepoints for path separators, whitespace, and null bytes. -/
def is_bad_name (name : String) : Except String Unit :=
  if name.isEmpty then Except.error "empty string"
  else checkNameChars name.data

/-! ## Typed identifiers (`newtype!` in `src/types.rs`) -/

/-- Newtype for values like `root_marked_by`. -/
structure FileName where
  val : String
  deriving DecidableEq, Repr

/-- Newtype for `argv[0]` as seen by wrapped commands. -/
structure CommandName where
  val : String
  deriving DecidableEq, Repr

/-- Newtype for `argv[1]` as seen by wrapped commands. -/
structure SubcommandName where
  val : String
  deriving DecidableEq, Repr

/-- `TryFrom<String> for FileName`: validate, then wrap. -/
def FileName.tryFrom (s : String) : Except String FileName :=
  match is_bad_name s with
  | Except.ok () => Except.ok ⟨s⟩
  | Except.error e => Except.error e

/-- `TryFrom<String> for CommandName`: validate, then wrap. -/
def CommandName.tryFrom (s : String) : Except String CommandName :=
  match is_bad_name s with
  | Except.ok () => Except.ok ⟨s⟩
  | Except.error e => Except.error e

/-- `TryFrom<String> for SubcommandName`: validate, then wrap. -/
def SubcommandName.tryFrom (s : String) : Except String SubcommandName :=
  match is_bad_name s with
  | Except.ok () => Except.ok ⟨s⟩
  | Except.error e => Except.error e

/-! ## Capability flags (`make_capability!` in `src/types/caps.rs`) -/

/-- Scope of network access. -/
inductive Network where
  | ChildProcsOnly
  | AllNetworks
  deriving DecidableEq, Repr

/-- `Default for Network`: the `false` variant. -/
def Network.default : Network := Network.ChildProcsOnly

/-- `From<bool> for Network`. -/
def Network.fromBool (value : Bool) : Network :=
  if value then Network.AllNetworks else Network.ChildProcsOnly

/-- Policy for identifying the project root directory. -/
inductive ProjectRoot where
  | Innermost
  | Outermost
  deriving DecidableEq, Repr

/-- `Default for ProjectRoot`: the `false` variant. -/
def ProjectRoot.default : ProjectRoot := ProjectRoot.Innermost

/-- `From<bool> for ProjectRoot`. -/
def ProjectRoot.fromBool (value : Bool) : ProjectRoot :=
  if value then ProjectRoot.Outermost else ProjectRoot.Innermost

/-! ## Configuration schema (`src/config.rs`)

`BTreeMap` fields are embedded as association lists (the validation and
lookup code only iterates or searches them). -/

/-- The schema for a single command's sandboxing profile. -/
structure CommandProfile where
  allow_network : Network
  allow_network_subcommands : List SubcommandName
  deny_subcommands : List SubcommandName
  projectless_subcommands : List SubcommandName
  root_marked_by : List FileName
  root_find_outermost : ProjectRoot
  subcommand_aliases : List (SubcommandName × SubcommandName)
  deriving DecidableEq, Repr

/-- The schema for the configuration file as a whole. -/
structure Config where
  firejail_base_flags : List String
  root_blacklist : List FileName
  profiles : List (CommandName × CommandProfile)
  deriving DecidableEq, Repr

/-- The loop of `Config::validate`: return the error for the first profile
whose `root_marked_by` is empty, `Ok` if there is none. -/
def validateProfiles : List CommandProfile → Except String Unit
  | [] => Except.ok ()
  | p :: rest =>
      if p.root_marked_by.isEmpty then
        Except.error "'root_marked_by' must contain at least one file/folder name"
      else validateProfiles rest

/-- `Config::validate` from `src/config.rs`: reject an empty profile map,
then check every profile's `root_marked_by` in turn. -/
def Config.validate (c : Config) : Except String Unit :=
  if c.profiles.isEmpty then
    Except.error "Configuration file must contain at least one profile"
  else validateProfiles (c.profiles.map Prod.snd)

/-! ## Configuration-path lookup (`config::find_path` in `src/config.rs`)

Paths are embedded as strings; `PathBuf::is_absolute` on the POSIX target
is "begins with `/`", and `PathBuf::push` of a relative component appends
it behind a separator.  The process environment is a record holding the
value of `$XDG_CONFIG_HOME` (as `env::var_os` sees it) and the result of
`std::env::home_dir()` (the `$HOME`-derived home directory).  Directory
existence (`Path::is_dir`) is an oracle parameter. -/

/-- `PathBuf::is_absolute` on POSIX: the path starts with `/` (so the
empty string is not absolute). -/
def isAbsolutePath (p : String) : Bool :=
  match p.data with
  | [] => false
  | c :: _ => c == '/'

/-- `PathBuf::push` on POSIX: an absolute component replaces the path,
a relative one is appended behind a `/` (none is doubled). -/
def pathPush (base comp : String) : String :=
  if isAbsolutePath comp then comp
  else if base == "" || base.endsWith "/" then base ++ comp
  else base ++ "/" ++ comp

/-- `format!("{}.toml", env!("CARGO_PKG_NAME"))`: the config file name. -/
def configFileName : String := "nodo.toml"

/-- The process-environment facts `find_path` consults:
`$XDG_CONFIG_HOME` and the result of `std::env::home_dir()`. -/
structure Env where
  xdg_config_home : Option String
  home_dir : Option String
  deriving DecidableEq, Repr

/-- The `$HOME/.config` fallback arm of `find_path`: push `.config` onto
the home directory, and accept it only if absolute and an existing
directory. -/
def homeFallback (e : Env) (isDir : String → Bool) : Option String :=
  match e.home_dir with
  | some h =>
      let path := pathPush h ".config"
      if isAbsolutePath path && isDir path then
        some (pathPush path configFileName)
      else none
  | none => none

/-- `config::find_path` from `src/config.rs`: prefer `$XDG_CONFIG_HOME`
when it is an absolute path to an existing directory, otherwise fall back
to `$HOME/.config` under the same conditions, otherwise `None`. -/
def find_path (e : Env) (isDir : String → Bool) : Option String :=
  match e.xdg_config_home with
  | some v =>
      if isAbsolutePath v && isDir v then some (pathPush v configFileName)
      else homeFallback e isDir
  | none => homeFallback e isDir

/-! ## Argument parsing (`parse_args` in `src/cli.rs`)

`OsString` values are embedded as strings (the code only compares their
lossy UTF-8 forms against ASCII literals and passes them through). -/

/-- Parsed information relevant to launching a sandboxed subprocess. -/
structure ChildArgs where
  debug : Bool
  child_argv : List String
  deriving DecidableEq, Repr

/-- The action determined to have been requested by `parse_args`. -/
inductive Action where
  | Exit
  | Sandbox (args : ChildArgs)
  | WriteConf
  deriving DecidableEq, Repr

/-- The tail of `parse_args`: after flag handling, an empty remaining
argument vector prints help and exits, anything else is sandboxed. -/
def finishArgs (debug : Bool) (child_argv : List String) : Action :=
  if child_argv.isEmpty then Action.Exit
  else Action.Sandbox ⟨debug, child_argv⟩

/-- `cli::parse_args` from `src/cli.rs`: drop the wrapper's own `argv[0]`,
interpret the first remaining argument if it is one of the recognised
flags, and pass everything else through verbatim. -/
def parse_args (args : List String) : Action :=
  let child_argv := args.drop 1
  match child_argv.head? with
  | some "--" => finishArgs false (child_argv.drop 1)
  | some "--debug" => finishArgs true (child_argv.drop 1)
  | none => Action.Exit
  | some "--help" => Action.Exit
  | some "-h" => Action.Exit
  | some "--version" => Action.Exit
  | some "--write-conf" => Action.WriteConf
  | some _ => finishArgs false child_argv

/-! ## Project-root resolver

The repository's sources only declare the `root_marked_by` /
`root_find_outermost` profile fields; the walk itself is described in the
design document.  Directories are embedded as component lists from the
filesystem root (`[]` is `/`), and a filesystem as the list of entry paths
that exist. -/

/-- Modelled from the spec: the ancestor chain of `start_dir`, from
`start_dir` itself (checked first) up to and including the filesystem
root. -/
def ancestorsOf (start : List String) : List (List String) :=
  ((List.range (start.length + 1)).reverse).map (fun n => start.take n)

/-- Modelled from the spec: a directory directly contains an entry (file
or directory) whose name equals one of the markers. -/
def hasMarker (fs : List (List String)) (markers : List String)
    (dir : List String) : Bool :=
  markers.any (fun m => fs.contains (dir ++ [m]))

/-- Modelled from the spec: the project-root resolver, missing from the
sources, which records every ancestor of `start` where a marker matches
and returns the first match (`Innermost`) or the last match
(`Outermost`). -/
def resolveRoot (fs : List (List String)) (start : List String)
    (markers : List String) (policy : ProjectRoot) : Option (List String) :=
  let found := (ancestorsOf start).filter (hasMarker fs markers)
  match policy with
  | ProjectRoot.Innermost => found.head?
  | ProjectRoot.Outermost => found.getLast?

/-! ## Policy resolver

Only the profile fields the resolver reads exist in the sources; the
orchestration (steps 1–9 of the design document) is modelled from the
spec. -/

/-- The fatal resolution errors of the design document. -/
inductive PolicyError where
  | UnknownCommand
  | DeniedSubcommand
  | NoProjectRoot
  deriving DecidableEq, Repr

/-- The resolved, ready-to-apply set of sandbox parameters. -/
structure Directive where
  root : List String
  network : Network
  denyPaths : List (List String)
  cwdAsRoot : Bool
  deriving DecidableEq, Repr

/-- Modelled from the spec: strip directory components from `argv[0]`,
keeping only the basename (the characters after the last `/`). -/
def basenameOf (s : String) : String :=
  ⟨s.data.foldl (fun acc c => if c == '/' then [] else acc ++ [c]) []⟩

/-- Modelled from the spec: steps 1–2 of policy resolution — normalise
`child_argv[0]` to its basename, validate it as a `CommandName`, and look
up its profile; any failure is `UnknownCommand`. -/
def lookupProfile (cfg : Config) (child_argv : List String) :
    Option CommandProfile :=
  match child_argv.head? with
  | none => none
  | some argv0 =>
      match CommandName.tryFrom (basenameOf argv0) with
      | Except.error _ => none
      | Except.ok cmd =>
          match cfg.profiles.find? (fun pr => pr.1 == cmd) with
          | some pr => some pr.2
          | none => none

/-- Modelled from the spec: step 3 — resolve a raw subcommand through
`subcommand_aliases` with exactly one indirection (no chaining). -/
def aliasResolve (p : CommandProfile) (s : String) : String :=
  match p.subcommand_aliases.find? (fun kv => kv.1.val == s) with
  | some kv => kv.2.val
  | none => s

/-- Modelled from the spec: the alias-resolved subcommand of an argument
vector, when `child_argv[1]` is present. -/
def resolvedSubcommand (p : CommandProfile) (child_argv : List String) :
    Option String :=
  (child_argv.get? 1).map (aliasResolve p)

/-- Whether an (optional) resolved subcommand is in a subcommand set. -/
def subIn (set : List SubcommandName) : Option String → Bool
  | some s => set.any (fun d => d.val == s)
  | none => false

/-- Modelled from the spec: the policy resolver, missing from the
sources — steps 1–9 of the design document: profile lookup, alias
resolution, deny check, projectless check, project-root discovery,
effective network capability, and blacklist merging. -/
def resolvePolicy (cfg : Config) (child_argv : List String)
    (cwd : List String) (fs : List (List String)) :
    Except PolicyError Directive :=
  match lookupProfile cfg child_argv with
  | none => Except.error PolicyError.UnknownCommand
  | some profile =>
      let sub := resolvedSubcommand profile child_argv
      if subIn profile.deny_subcommands sub then
        Except.error PolicyError.DeniedSubcommand
      else
        let projectless := subIn profile.projectless_subcommands sub
        let rootOpt :=
          if projectless then some cwd
          else resolveRoot fs cwd (profile.root_marked_by.map FileName.val)
            profile.root_find_outermost
        match rootOpt with
        | none => Except.error PolicyError.NoProjectRoot
        | some root =>
            let network :=
              if profile.allow_network == Network.AllNetworks ||
                  subIn profile.allow_network_subcommands sub then
                Network.AllNetworks
              else Network.ChildProcsOnly
            Except.ok
              { root := root
                network := network
                denyPaths := cfg.root_blacklist.map (fun f => root ++ [f.val])
                cwdAsRoot := projectless }

/-! ## Theorems -/

/-- A codepoint acceptable in a name: not a path separator, not Unicode
whitespace, not U+0000. -/
def GoodChar (c : Char) : Bool :=
  !(isPathSeparator c) && !(rustIsWhitespace c) && !(c == nulChar)

/-- A string acceptable as a file/command/subcommand name. -/
def GoodName (s : String) : Prop :=
  s ≠ "" ∧ ∀ c ∈ s.data, GoodChar c = true

/-- A reported rejection reason is one the string actually violates. -/
def FailReasonValid (s : String) (e : String) : Prop :=
  (e = "empty string" ∧ s = "") ∨
  (e = "path separator" ∧ ∃ c ∈ s.data, isPathSeparator c = true) ∨
  (e = "shell argument list" ∧ ∃ c ∈ s.data, rustIsWhitespace c = true) ∨
  (e = "null byte" ∧ ∃ c ∈ s.data, c = nulChar)

theorem checkNameChars_ok_iff (l : List Char) :
    checkNameChars l = Except.ok () ↔ ∀ c ∈ l, GoodChar c = true := by
  induction l with
  | nil => simp [checkNameChars]
  | cons c rest ih =>
      by_cases hsep : isPathSeparator c = true
      · simp [checkNameChars, hsep, GoodChar, List.forall_mem_cons]
      · by_cases hws : rustIsWhitespace c = true
        · simp [checkNameChars, hsep, hws, GoodChar, List.forall_mem_cons]
        · by_cases hnul : (c == nulChar) = true
          · have hc : c = nulChar := eq_of_beq hnul
            subst hc
            rw [checkNameChars, if_neg (by decide), if_neg (by decide),
              if_pos (by decide)]
            simp only [List.forall_mem_cons]
            constructor
            · intro h
              exact absurd h (by simp)
            · rintro ⟨hg, -⟩
              exact absurd hg (by decide)
          · have hc : ¬c = nulChar := fun h => hnul (by simp [h])
            simp [checkNameChars, hsep, hws, hc, GoodChar,
              List.forall_mem_cons, ih]

theorem checkNameChars_error (l : List Char) (e : String)
    (h : checkNameChars l = Except.error e) :
    (e = "path separator" ∧ ∃ c ∈ l, isPathSeparator c = true) ∨
    (e = "shell argument list" ∧ ∃ c ∈ l, rustIsWhitespace c = true) ∨
    (e = "null byte" ∧ ∃ c ∈ l, c = nulChar) := by
  revert h
  induction l with
  | nil => intro h; simp [checkNameChars] at h
  | cons c rest ih =>
      intro h
      rw [checkNameChars] at h
      by_cases hsep : isPathSeparator c = true
      · rw [if_pos hsep] at h
        injection h with he
        exact Or.inl ⟨he.symm, c, by simp, hsep⟩
      · rw [if_neg hsep] at h
        by_cases hws : rustIsWhitespace c = true
        · rw [if_pos hws] at h
          injection h with he
          exact Or.inr (Or.inl ⟨he.symm, c, by simp, hws⟩)
        · rw [if_neg hws] at h
          by_cases hnul : (c == nulChar) = true
          · rw [if_pos hnul] at h
            injection h with he
            exact Or.inr (Or.inr ⟨he.symm, c, by simp, eq_of_beq hnul⟩)
          · rw [if_neg hnul] at h
            rcases ih h with ⟨he, x, hx, hpx⟩ | ⟨he, x, hx, hpx⟩ |
              ⟨he, x, hx, hpx⟩
            · exact Or.inl ⟨he, x, by simp [hx], hpx⟩
            · exact Or.inr (Or.inl ⟨he, x, by simp [hx], hpx⟩)
            · exact Or.inr (Or.inr ⟨he, x, by simp [hx], hpx⟩)

theorem is_bad_name_ok_iff (s : String) :
    is_bad_name s = Except.ok () ↔ GoodName s := by
  by_cases hemp : s.isEmpty = true
  · have hs : s = "" := (String.isEmpty_iff s).mp hemp
    subst hs
    constructor
    · intro h
      exact absurd h (by decide)
    · rintro ⟨hne, -⟩
      exact absurd rfl hne
  · have hs : s ≠ "" := fun h => hemp ((String.isEmpty_iff s).mpr h)
    rw [is_bad_name, if_neg hemp, checkNameChars_ok_iff]
    unfold GoodName
    simp [hs]

theorem is_bad_name_error_valid (s : String) (e : String)
    (h : is_bad_name s = Except.error e) : FailReasonValid s e := by
  unfold is_bad_name at h
  by_cases hemp : s.isEmpty = true
  · rw [if_pos hemp] at h
    injection h with he
    exact Or.inl ⟨he.symm, (String.isEmpty_iff s).mp hemp⟩
  · rw [if_neg hemp] at h
    rcases checkNameChars_error s.data e h with h' | h' | h'
    · exact Or.inr (Or.inl h')
    · exact Or.inr (Or.inr (Or.inl h'))
    · exact Or.inr (Or.inr (Or.inr h'))

theorem fileName_tryFrom_ok_iff (s : String) :
    (∃ v, FileName.tryFrom s = Except.ok v) ↔ is_bad_name s = Except.ok () := by
  unfold FileName.tryFrom
  cases h : is_bad_name s with
  | ok u => cases u; simp
  | error e => simp

theorem commandName_tryFrom_ok_iff (s : String) :
    (∃ v, CommandName.tryFrom s = Except.ok v) ↔
      is_bad_name s = Except.ok () := by
  unfold CommandName.tryFrom
  cases h : is_bad_name s with
  | ok u => cases u; simp
  | error e => simp

theorem subcommandName_tryFrom_ok_iff (s : String) :
    (∃ v, SubcommandName.tryFrom s = Except.ok v) ↔
      is_bad_name s = Except.ok () := by
  unfold SubcommandName.tryFrom
  cases h : is_bad_name s with
  | ok u => cases u; simp
  | error e => simp

theorem fileName_tryFrom_error_iff (s e : String) :
    FileName.tryFrom s = Except.error e ↔ is_bad_name s = Except.error e := by
  unfold FileName.tryFrom
  cases h : is_bad_name s with
  | ok u => cases u; simp
  | error e' => simp

theorem commandName_tryFrom_error_iff (s e : String) :
    CommandName.tryFrom s = Except.error e ↔
      is_bad_name s = Except.error e := by
  unfold CommandName.tryFrom
  cases h : is_bad_name s with
  | ok u => cases u; simp
  | error e' => simp

theorem subcommandName_tryFrom_error_iff (s e : String) :
    SubcommandName.tryFrom s = Except.error e ↔
      is_bad_name s = Except.error e := by
  unfold SubcommandName.tryFrom
  cases h : is_bad_name s with
  | ok u => cases u; simp
  | error e' => simp

/-- C1: construction of a typed identifier (`FileName`, `CommandName`, or
`SubcommandName`) from a string succeeds iff the string is non-empty and
no codepoint is a platform path separator, a Unicode whitespace codepoint,
or U+0000; when it fails, the reported reason matches a rule the string
actually violates. -/
theorem claim_C1 (s : String) :
    ((∃ v, FileName.tryFrom s = Except.ok v) ↔ GoodName s) ∧
    ((∃ v, CommandName.tryFrom s = Except.ok v) ↔ GoodName s) ∧
    ((∃ v, SubcommandName.tryFrom s = Except.ok v) ↔ GoodName s) ∧
    (∀ e, FileName.tryFrom s = Except.error e → FailReasonValid s e) ∧
    (∀ e, CommandName.tryFrom s = Except.error e → FailReasonValid s e) ∧
    (∀ e, SubcommandName.tryFrom s = Except.error e → FailReasonValid s e) := by
  refine ⟨?_, ?_, ?_, ?_, ?_, ?_⟩
  · rw [fileName_tryFrom_ok_iff, is_bad_name_ok_iff]
  · rw [commandName_tryFrom_ok_iff, is_bad_name_ok_iff]
  · rw [subcommandName_tryFrom_ok_iff, is_bad_name_ok_iff]
  · intro e he
    exact is_bad_name_error_valid s e ((fileName_tryFrom_error_iff s e).mp he)
  · intro e he
    exact is_bad_name_error_valid s e ((commandName_tryFrom_error_iff s e).mp he)
  · intro e he
    exact is_bad_name_error_valid s e
      ((subcommandName_tryFrom_error_iff s e).mp he)

/-- C1 witness: a name with an interior space is rejected as a
shell-argument-list mistake, and the reason is one the string violates. -/
theorem claim_C1_witness :
    GoodName "cargo" ∧ FailReasonValid "a b" "shell argument list" :=
  ⟨(claim_C1 "cargo").1.mp ⟨⟨"cargo"⟩, by decide⟩,
   (claim_C1 "a b").2.2.2.1 "shell argument list" (by decide)⟩

/-- C4: both capability types default to the restrictive variant and the
boolean mapping is fixed: `false` yields `ChildProcsOnly` / `Innermost`
and `true` yields `AllNetworks` / `Outermost`, so an omitted capability
field (which deserializes through `Default`) is always the restrictive
variant. -/
theorem claim_C4 :
    Network.default = Network.ChildProcsOnly ∧
    ProjectRoot.default = ProjectRoot.Innermost ∧
    Network.fromBool false = Network.ChildProcsOnly ∧
    Network.fromBool true = Network.AllNetworks ∧
    ProjectRoot.fromBool false = ProjectRoot.Innermost ∧
    ProjectRoot.fromBool true = ProjectRoot.Outermost := by
  decide

theorem validateProfiles_ok_iff (l : List CommandProfile) :
    validateProfiles l = Except.ok () ↔
      ∀ p ∈ l, p.root_marked_by ≠ [] := by
  induction l with
  | nil => simp [validateProfiles]
  | cons p rest ih =>
      by_cases hp : p.root_marked_by.isEmpty = true
      · have hnil : p.root_marked_by = [] := by
          simpa using hp
        simp [validateProfiles, hp, List.forall_mem_cons, hnil]
      · have hne : p.root_marked_by ≠ [] := by
          simpa using hp
        simp [validateProfiles, hp, List.forall_mem_cons, hne, ih]

theorem validateProfiles_total (l : List CommandProfile) :
    validateProfiles l = Except.ok () ∨
      validateProfiles l =
        Except.error
          "'root_marked_by' must contain at least one file/folder name" := by
  induction l with
  | nil => exact Or.inl rfl
  | cons p rest ih =>
      by_cases hp : p.root_marked_by.isEmpty = true
      · exact Or.inr (by rw [validateProfiles, if_pos hp])
      · rw [validateProfiles, if_neg hp]
        exact ih

theorem Config.validate_ok_iff (c : Config) :
    c.validate = Except.ok () ↔
      (c.profiles ≠ [] ∧ ∀ pr ∈ c.profiles, pr.2.root_marked_by ≠ []) := by
  unfold Config.validate
  by_cases hemp : c.profiles.isEmpty = true
  · have hnil : c.profiles = [] := by simpa using hemp
    simp [hemp, hnil]
  · have hne : c.profiles ≠ [] := by simpa using hemp
    rw [if_neg hemp, validateProfiles_ok_iff]
    constructor
    · intro h
      refine ⟨hne, ?_⟩
      intro pr hpr
      exact h pr.2 (List.mem_map_of_mem Prod.snd hpr)
    · rintro ⟨-, h⟩ q hq
      rcases List.mem_map.mp hq with ⟨pr, hpr, rfl⟩
      exact h pr hpr

/-- C2: `Config::validate` returns `Ok` iff the profile map is non-empty
and every profile's `root_marked_by` list is non-empty; any violation is
rejected with an error. -/
theorem claim_C2 (c : Config) :
    (c.validate = Except.ok () ↔
      (c.profiles ≠ [] ∧ ∀ pr ∈ c.profiles, pr.2.root_marked_by ≠ [])) ∧
    ((c.profiles = [] ∨ ∃ pr ∈ c.profiles, pr.2.root_marked_by = []) →
      ∃ m, c.validate = Except.error m) := by
  refine ⟨Config.validate_ok_iff c, ?_⟩
  intro hbad
  cases hval : c.validate with
  | error m => exact ⟨m, rfl⟩
  | ok u =>
      cases u
      exfalso
      have h := (Config.validate_ok_iff c).mp hval
      rcases hbad with hnil | ⟨pr, hpr, hmarked⟩
      · exact h.1 hnil
      · exact h.2 pr hpr hmarked

/-- A profile whose fields are all individually valid except that
`root_marked_by` is the empty list. -/
def profileWithoutMarkers : CommandProfile :=
  { allow_network := Network.default
    allow_network_subcommands := []
    deny_subcommands := []
    projectless_subcommands := []
    root_marked_by := []
    root_find_outermost := ProjectRoot.default
    subcommand_aliases := [] }

/-- A configuration with a single profile violating the
`root_marked_by` rule. -/
def badConfigOne : Config :=
  { firejail_base_flags := []
    root_blacklist := []
    profiles := [(⟨"make"⟩, profileWithoutMarkers)] }

/-- A configuration with two profiles, both violating the
`root_marked_by` rule. -/
def badConfigTwo : Config :=
  { firejail_base_flags := []
    root_blacklist := []
    profiles := [(⟨"cargo"⟩, profileWithoutMarkers),
                 (⟨"make"⟩, profileWithoutMarkers)] }

/-- C2 witness: a concrete configuration whose only profile has an empty
`root_marked_by` is rejected by `Config::validate`. -/
theorem claim_C2_witness : ∃ m, badConfigOne.validate = Except.error m :=
  (claim_C2 badConfigOne).2
    (Or.inr ⟨(⟨"make"⟩, profileWithoutMarkers), by decide, rfl⟩)

/-- C3 counterexample: a configuration with two violating profiles
(`cargo` and `make`, both with empty `root_marked_by`) is rejected with
the very same single static message as a configuration with just one
violating profile — validation neither accumulates the violations nor
names the offending profile or value, contradicting the claim of a
structured error list. -/
theorem claim_C3_counterexample :
    badConfigTwo.profiles.length = 2 ∧
    (∀ pr ∈ badConfigTwo.profiles, pr.2.root_marked_by = []) ∧
    badConfigTwo.validate =
      Except.error
        "'root_marked_by' must contain at least one file/folder name" ∧
    badConfigOne.validate = badConfigTwo.validate := by
  decide

/-- C3 (amended): configuration validation stops at the first violation
and returns a single static message — always one of two fixed strings
identifying the violated rule, never a structured list naming the
offending profile or value. -/
theorem claim_C3_amended (c : Config) :
    c.validate = Except.ok () ∨
    c.validate =
      Except.error "Configuration file must contain at least one profile" ∨
    c.validate =
      Except.error
        "'root_marked_by' must contain at least one file/folder name" := by
  unfold Config.validate
  by_cases hemp : c.profiles.isEmpty = true
  · rw [if_pos hemp]
    exact Or.inr (Or.inl rfl)
  · rw [if_neg hemp]
    rcases validateProfiles_total (c.profiles.map Prod.snd) with h | h
    · exact Or.inl h
    · exact Or.inr (Or.inr h)

theorem finishArgs_sandbox (d : Bool) (l : List String) (ca : ChildArgs)
    (h : finishArgs d l = Action.Sandbox ca) : ca = ⟨d, l⟩ ∧ l ≠ [] := by
  unfold finishArgs at h
  by_cases hemp : l.isEmpty = true
  · rw [if_pos hemp] at h
    cases h
  · rw [if_neg hemp] at h
    injection h with h'
    exact ⟨h'.symm, by simpa using hemp⟩

theorem finishArgs_nil (d : Bool) : finishArgs d [] = Action.Exit := rfl

/-- C8: whenever `parse_args` returns `Action::Sandbox`, the child
argument vector is non-empty; argument lists that leave no command after
flag stripping — none at all, a lone `--`, or a lone `--debug` — exit
instead. -/
theorem claim_C8 :
    (∀ args ca, parse_args args = Action.Sandbox ca → ca.child_argv ≠ []) ∧
    (∀ prog : String,
      parse_args [prog] = Action.Exit ∧
      parse_args [prog, "--"] = Action.Exit ∧
      parse_args [prog, "--debug"] = Action.Exit) := by
  constructor
  · intro args ca h
    unfold parse_args at h
    dsimp only at h
    split at h
    · have := finishArgs_sandbox _ _ _ h
      rw [this.1]
      exact this.2
    · have := finishArgs_sandbox _ _ _ h
      rw [this.1]
      exact this.2
    · cases h
    · cases h
    · cases h
    · cases h
    · cases h
    · have := finishArgs_sandbox _ _ _ h
      rw [this.1]
      exact this.2
  · intro prog
    exact ⟨rfl, rfl, rfl⟩

/-- C8 witness: a concrete invocation that sandboxes has a non-empty
child argument vector. -/
theorem claim_C8_witness : (ChildArgs.mk false ["cargo"]).child_argv ≠ [] :=
  claim_C8.1 ["nodo", "cargo"] ⟨false, ["cargo"]⟩ (by decide)

/-- C10: only the first argument after the program name is interpreted as
a flag: a leading `--` or `--debug` is removed (the latter setting
`debug`), and every remaining argument — whatever it looks like — is
passed through verbatim and in order; a non-flag first argument passes
the whole vector through. -/
theorem claim_C10 (prog first : String) (rest : List String)
    (hrest : rest ≠ [])
    (hfirst : first ∉ (["--", "--debug", "--help", "-h", "--version",
      "--write-conf"] : List String)) :
    parse_args (prog :: "--" :: rest) = Action.Sandbox ⟨false, rest⟩ ∧
    parse_args (prog :: "--debug" :: rest) = Action.Sandbox ⟨true, rest⟩ ∧
    parse_args (prog :: first :: rest) =
      Action.Sandbox ⟨false, first :: rest⟩ := by
  have hne : rest.isEmpty = false := by simpa using hrest
  refine ⟨?_, ?_, ?_⟩
  · have hred : parse_args (prog :: "--" :: rest) = finishArgs false rest :=
      rfl
    rw [hred]
    simp [finishArgs, hne]
  · have hred : parse_args (prog :: "--debug" :: rest) =
      finishArgs true rest := rfl
    rw [hred]
    simp [finishArgs, hne]
  · unfold parse_args
    dsimp only
    split <;> simp_all [finishArgs]

/-- C10 witness: a later `--debug` is passed through verbatim in each of
the three modes. -/
theorem claim_C10_witness :
    parse_args ["nodo", "--", "--debug"] =
      Action.Sandbox ⟨false, ["--debug"]⟩ ∧
    parse_args ["nodo", "--debug", "--debug"] =
      Action.Sandbox ⟨true, ["--debug"]⟩ ∧
    parse_args ["nodo", "cargo", "--debug"] =
      Action.Sandbox ⟨false, ["cargo", "--debug"]⟩ :=
  claim_C10 "nodo" "cargo" ["--debug"] (by decide) (by decide)

theorem homeFallback_some_iff (e : Env) (isDir : String → Bool)
    (p : String) :
    homeFallback e isDir = some p ↔
      ∃ h, e.home_dir = some h ∧
        isAbsolutePath (pathPush h ".config") = true ∧
        isDir (pathPush h ".config") = true ∧
        p = pathPush (pathPush h ".config") configFileName := by
  unfold homeFallback
  cases hh : e.home_dir with
  | none => simp
  | some h =>
      dsimp only
      by_cases h1 : isAbsolutePath (pathPush h ".config") = true
      · by_cases h2 : isDir (pathPush h ".config") = true
        · simp only [h1, h2, Bool.and_self, if_true, Option.some.injEq,
            true_and, exists_eq_left']
          exact eq_comm
        · simp [h1, h2]
      · simp [h1]

theorem homeFallback_none_iff (e : Env) (isDir : String → Bool) :
    homeFallback e isDir = none ↔
      ∀ h, e.home_dir = some h →
        ¬(isAbsolutePath (pathPush h ".config") = true ∧
          isDir (pathPush h ".config") = true) := by
  unfold homeFallback
  cases hh : e.home_dir with
  | none => simp
  | some h =>
      dsimp only
      by_cases h1 : isAbsolutePath (pathPush h ".config") = true
      · by_cases h2 : isDir (pathPush h ".config") = true
        · simp [h1, h2]
        · simp [h1, h2]
      · simp [h1]

/-- C7: `config::find_path` returns `Some` exactly when
`$XDG_CONFIG_HOME` (checked first) or the home directory's `.config` is
an absolute path to an existing directory, and the returned path is that
directory joined with the configuration file name; it returns `None` iff
neither location qualifies. -/
theorem claim_C7 (e : Env) (isDir : String → Bool) :
    (∀ p, find_path e isDir = some p ↔
      ((∃ x, e.xdg_config_home = some x ∧ isAbsolutePath x = true ∧
          isDir x = true ∧ p = pathPush x configFileName) ∨
       ((∀ x, e.xdg_config_home = some x →
           ¬(isAbsolutePath x = true ∧ isDir x = true)) ∧
        ∃ h, e.home_dir = some h ∧
          isAbsolutePath (pathPush h ".config") = true ∧
          isDir (pathPush h ".config") = true ∧
          p = pathPush (pathPush h ".config") configFileName))) ∧
    (find_path e isDir = none ↔
      ((∀ x, e.xdg_config_home = some x →
          ¬(isAbsolutePath x = true ∧ isDir x = true)) ∧
       (∀ h, e.home_dir = some h →
          ¬(isAbsolutePath (pathPush h ".config") = true ∧
            isDir (pathPush h ".config") = true)))) := by
  unfold find_path
  cases hx : e.xdg_config_home with
  | none =>
      constructor
      · intro p
        rw [homeFallback_some_iff]
        simp
      · rw [homeFallback_none_iff]
        simp
  | some x =>
      dsimp only
      by_cases h1 : isAbsolutePath x = true
      · by_cases h2 : isDir x = true
        · rw [if_pos (by simp [h1, h2])]
          constructor
          · intro p
            constructor
            · intro hp
              injection hp with hp'
              exact Or.inl ⟨x, rfl, h1, h2, hp'.symm⟩
            · rintro (⟨x', hx', ha, hd, hp⟩ | ⟨hinv, -⟩)
              · injection hx' with hx''
                subst hx''
                rw [hp]
              · exact absurd ⟨h1, h2⟩ (hinv x rfl)
          · constructor
            · intro hnone
              exact absurd hnone (by simp)
            · rintro ⟨hinv, -⟩
              exact absurd ⟨h1, h2⟩ (hinv x rfl)
        · rw [if_neg (by simp [h2])]
          have hinv : ∀ x', some x = some x' →
              ¬(isAbsolutePath x' = true ∧ isDir x' = true) := by
            rintro x' hx' ⟨-, hd⟩
            injection hx' with hh
            subst hh
            exact h2 hd
          constructor
          · intro p
            rw [homeFallback_some_iff]
            constructor
            · intro hf
              exact Or.inr ⟨hinv, hf⟩
            · rintro (⟨x', hx', ha, hd, -⟩ | ⟨-, hf⟩)
              · exact absurd ⟨ha, hd⟩ (hinv x' hx')
              · exact hf
          · rw [homeFallback_none_iff]
            constructor
            · intro hf
              exact ⟨hinv, hf⟩
            · rintro ⟨-, hf⟩
              exact hf
      · rw [if_neg (by simp [h1])]
        have hinv : ∀ x', some x = some x' →
            ¬(isAbsolutePath x' = true ∧ isDir x' = true) := by
          rintro x' hx' ⟨ha, -⟩
          injection hx' with hh
          subst hh
          exact h1 ha
        constructor
        · intro p
          rw [homeFallback_some_iff]
          constructor
          · intro hf
            exact Or.inr ⟨hinv, hf⟩
          · rintro (⟨x', hx', ha, hd, -⟩ | ⟨-, hf⟩)
            · exact absurd ⟨ha, hd⟩ (hinv x' hx')
            · exact hf
        · rw [homeFallback_none_iff]
          constructor
          · intro hf
            exact ⟨hinv, hf⟩
          · rintro ⟨-, hf⟩
            exact hf

/-- C9: when `$XDG_CONFIG_HOME` holds an absolute path to an existing
directory, `find_path` is independent of the home directory: two
environments agreeing on such an `$XDG_CONFIG_HOME` produce the same
result whatever their `HOME`-derived home directories are. -/
theorem claim_C9 (e₁ e₂ : Env) (isDir : String → Bool) (x : String)
    (h₁ : e₁.xdg_config_home = some x) (h₂ : e₂.xdg_config_home = some x)
    (habs : isAbsolutePath x = true) (hdir : isDir x = true) :
    find_path e₁ isDir = find_path e₂ isDir := by
  unfold find_path
  rw [h₁, h₂]
  simp [habs, hdir]

/-- C9 witness: with a valid `$XDG_CONFIG_HOME`, an environment with a
home directory and one without agree on `find_path`. -/
theorem claim_C9_witness :
    find_path ⟨some "/xdg", some "/home"⟩ (fun p => p == "/xdg") =
      find_path ⟨some "/xdg", none⟩ (fun p => p == "/xdg") :=
  claim_C9 ⟨some "/xdg", some "/home"⟩ ⟨some "/xdg", none⟩
    (fun p => p == "/xdg") "/xdg" rfl rfl (by decide) (by decide)

theorem head?_filter_eq_some {α : Type} (p : α → Bool) (l : List α)
    (a : α) :
    (l.filter p).head? = some a ↔
      ∃ pre post, l = pre ++ a :: post ∧ (∀ x ∈ pre, ¬p x = true) ∧
        p a = true := by
  rw [List.head?_eq_some_iff]
  constructor
  · rintro ⟨as, has⟩
    rw [List.filter_eq_cons_iff] at has
    obtain ⟨l₁, l₂, rfl, hl₁, hpa, -⟩ := has
    exact ⟨l₁, l₂, rfl, hl₁, hpa⟩
  · rintro ⟨pre, post, rfl, hpre, hpa⟩
    exact ⟨post.filter p,
      List.filter_eq_cons_iff.mpr ⟨pre, post, rfl, hpre, hpa, rfl⟩⟩

theorem getLast?_filter_eq_some {α : Type} (p : α → Bool) (l : List α)
    (a : α) :
    (l.filter p).getLast? = some a ↔
      ∃ pre post, l = pre ++ a :: post ∧ p a = true ∧
        ∀ x ∈ post, ¬p x = true := by
  rw [List.getLast?_eq_head?_reverse, ← List.filter_reverse,
    head?_filter_eq_some]
  constructor
  · rintro ⟨pre, post, hrev, hpre, hpa⟩
    refine ⟨post.reverse, pre.reverse, ?_, hpa, ?_⟩
    · have := congrArg List.reverse hrev
      simpa using this
    · intro x hx
      exact hpre x (by simpa using hx)
  · rintro ⟨pre, post, rfl, hpa, hpost⟩
    refine ⟨post.reverse, pre.reverse, by simp, ?_, hpa⟩
    intro x hx
    exact hpost x (by simpa using hx)

/-- The filesystem of §8's root-resolution example: markers exist in
`/a` and `/a/b`, and the walk starts at `/a/b/c`. -/
def exampleFs : List (List String) :=
  [["a", "marker"], ["a", "b", "marker"], ["a", "b", "c"]]

/-- C5: project-root resolution scans the ancestors of the start
directory, the start directory itself first and the filesystem root last;
under `Innermost` the result is the first matching ancestor (everything
nearer the start has no marker), under `Outermost` it is the last
matching ancestor (everything nearer the root has no marker).  On a tree
with markers in `/a` and `/a/b`, starting at `/a/b/c`, `Innermost`
returns `/a/b` and `Outermost` returns `/a`. -/
theorem claim_C5 :
    (∀ start : List String, (ancestorsOf start).head? = some start) ∧
    (∀ start : List String, (ancestorsOf start).getLast? = some []) ∧
    (∀ fs start markers d,
      resolveRoot fs start markers ProjectRoot.Innermost = some d ↔
        ∃ pre post, ancestorsOf start = pre ++ d :: post ∧
          (∀ x ∈ pre, ¬hasMarker fs markers x = true) ∧
          hasMarker fs markers d = true) ∧
    (∀ fs start markers d,
      resolveRoot fs start markers ProjectRoot.Outermost = some d ↔
        ∃ pre post, ancestorsOf start = pre ++ d :: post ∧
          hasMarker fs markers d = true ∧
          ∀ x ∈ post, ¬hasMarker fs markers x = true) ∧
    resolveRoot exampleFs ["a", "b", "c"] ["marker"]
      ProjectRoot.Innermost = some ["a", "b"] ∧
    resolveRoot exampleFs ["a", "b", "c"] ["marker"]
      ProjectRoot.Outermost = some ["a"] := by
  refine ⟨?_, ?_, ?_, ?_, by decide, by decide⟩
  · intro start
    rw [ancestorsOf, List.head?_map, List.head?_reverse, List.getLast?_range]
    simp
  · intro start
    rw [ancestorsOf, List.getLast?_map, List.getLast?_reverse,
      List.head?_range]
    simp
  · intro fs start markers d
    show ((ancestorsOf start).filter (hasMarker fs markers)).head? =
        some d ↔ _
    exact head?_filter_eq_some _ _ _
  · intro fs start markers d
    show ((ancestorsOf start).filter (hasMarker fs markers)).getLast? =
        some d ↔ _
    exact getLast?_filter_eq_some _ _ _

/-- C6: when the alias-resolved subcommand is in the profile's
`deny_subcommands`, policy resolution fails with `DeniedSubcommand` —
with no constraint on `allow_network` or `allow_network_subcommands`, so
the failure holds regardless of the network configuration, including when
the same subcommand also appears in `allow_network_subcommands`. -/
theorem claim_C6 (cfg : Config) (child_argv : List String)
    (cwd : List String) (fs : List (List String)) (p : CommandProfile)
    (s : String)
    (hp : lookupProfile cfg child_argv = some p)
    (hs : resolvedSubcommand p child_argv = some s)
    (hdeny : p.deny_subcommands.any (fun d => d.val == s) = true) :
    resolvePolicy cfg child_argv cwd fs =
      Except.error PolicyError.DeniedSubcommand := by
  unfold resolvePolicy
  rw [hp]
  dsimp only
  rw [hs]
  have : subIn p.deny_subcommands (some s) = true := by
    simpa [subIn] using hdeny
  rw [this]
  rfl

/-- The §8 end-to-end profile: `deps` is both network-allowed and
denied, with `allow_network = false`. -/
def buildProfile : CommandProfile :=
  { allow_network := Network.ChildProcsOnly
    allow_network_subcommands := [⟨"deps"⟩]
    deny_subcommands := [⟨"deps"⟩]
    projectless_subcommands := []
    root_marked_by := [⟨"Makefile"⟩]
    root_find_outermost := ProjectRoot.Innermost
    subcommand_aliases := [] }

/-- A configuration holding only the `build` profile. -/
def buildConfig : Config :=
  { firejail_base_flags := []
    root_blacklist := []
    profiles := [(⟨"build"⟩, buildProfile)] }

/-- C6 witness: `build deps` with `deps` in both
`allow_network_subcommands` and `deny_subcommands` resolves to
`DeniedSubcommand`. -/
theorem claim_C6_witness :
    resolvePolicy buildConfig ["build", "deps"] [] [] =
      Except.error PolicyError.DeniedSubcommand :=
  claim_C6 buildConfig ["build", "deps"] [] [] buildProfile "deps"
    (by decide) (by decide) (by decide)

end Nodo
